import Mathlib

/-!
Verification development for the news-aggregation core of `src/app.py`.

Python strings are modelled as `List Char` (ASCII-faithful: `str.lower`
is modelled on the ASCII range, and the regex classes `[a-zA-Z0-9]` and
`\s` are modelled by `Char.isAlphanum` and the six ASCII whitespace
characters, which is exactly what the source regexes match on ASCII
input).  Python dicts produced by the adapters are modelled as records
whose fields are the keys the core reads; `none` models a missing key or
a JSON `null` (both of which `dict.get` turns into Python `None`).
-/

/-- Python strings, modelled as lists of characters. -/
abbrev Str := List Char

/-- Coerce a Lean string literal into the `Str` model. -/
def strOf (s : String) : Str := s.toList

/-- Model of Python `str.lower()` on the ASCII range: map A-Z to a-z and
leave every other character unchanged. -/
def pyLower (c : Char) : Char :=
  if 'A' ≤ c ∧ c ≤ 'Z' then Char.ofNat (c.toNat + 32) else c

/-- Model of the Python regex class `\s` (ASCII whitespace:
space, tab, newline, carriage return, vertical tab, form feed). -/
def isPySpace (c : Char) : Bool :=
  c == ' ' || c == '\t' || c == '\n' || c == '\r' || c == '\x0b' || c == '\x0c'

/-- A character survives `re.sub(r'[^a-zA-Z0-9\s]', '', -)` exactly when it
is ASCII alphanumeric or whitespace. -/
def keepChar (c : Char) : Bool := c.isAlphanum || isPySpace c

/-- Model of Python `str.strip()`: drop whitespace from both ends. -/
def pyStrip (s : Str) : Str :=
  ((s.dropWhile isPySpace).reverse.dropWhile isPySpace).reverse

/-- Accumulator-based word splitter; `acc` holds the current word reversed. -/
def splitWsAux : Str → Str → List Str
  | [], acc => if acc.isEmpty then [] else [acc.reverse]
  | c :: cs, acc =>
    if isPySpace c then
      if acc.isEmpty then splitWsAux cs [] else acc.reverse :: splitWsAux cs []
    else splitWsAux cs (c :: acc)

/-- Model of Python `str.split()` with no argument: split on runs of
whitespace, discarding empty tokens. -/
def splitWs (s : Str) : List Str := splitWsAux s []

/-- The fixed stop-word set of `get_keywords` (src/app.py line 54). -/
def stopWords : List Str :=
  ["the", "a", "an", "in", "on", "at", "for", "to", "of", "and", "is",
   "with", "by", "from", "news", "update", "live", "says", "report"].map strOf

/-- Model of `get_keywords` (src/app.py lines 50-55): empty input gives the
empty set (Python `if not text`); otherwise lowercase, delete every
character that is neither ASCII alphanumeric nor whitespace, split on
whitespace, and keep the tokens that are not stop words and have length
greater than 2.  A `None` title is observationally the same as the empty
string here (`if not text` catches both). -/
def get_keywords (text : Str) : Finset Str :=
  if text.isEmpty then ∅
  else
    let clean := (text.map pyLower).filter keepChar
    let words := (splitWs clean).toFinset
    words.filter (fun w => w ∉ stopWords ∧ 2 < w.length)

/-- The normalized article record.  Fields are the dict keys the core
reads (`title`, `urlToImage` inside `deduplicate_articles`; the rest are
the keys written by the adapters).  `none` models Python `None` or a
missing key. -/
structure Article where
  title : Str
  description : Str
  url : Option Str
  urlToImage : Option Str
  publishedAt : Option Str
  source : Str
deriving DecidableEq, Repr

/-- Python truthiness of an optional string: `None` and the empty string
are falsy, every other string is truthy. -/
def truthy : Option Str → Bool
  | none => false
  | some s => !s.isEmpty

/-- The match condition of src/app.py line 65, evaluated when both keyword
sets are non-empty: the Jaccard ratio exceeds 0.3 or the overlap has at
least 3 elements.  Python computes the ratio in double-precision floating
point; for set sizes below 10^14 the float comparison `ratio > 0.3`
decides exactly as the rational comparison used here, so the rational
model is exact on every reachable input. -/
def matchCond (ck ek : Finset Str) : Prop :=
  (3 : ℚ) / 10 < ((ck ∩ ek).card : ℚ) / ((ck ∪ ek).card : ℚ) ∨
    3 ≤ (ck ∩ ek).card

instance (ck ek : Finset Str) : Decidable (matchCond ck ek) :=
  decidable_of_iff
    (3 * (ck ∪ ek).card < 10 * (ck ∩ ek).card ∨ 3 ≤ (ck ∩ ek).card) (by
      have hab : (ck ∩ ek).card ≤ (ck ∪ ek).card :=
        Finset.card_le_card Finset.inter_subset_union
      unfold matchCond
      rcases Nat.eq_zero_or_pos (ck ∪ ek).card with hb | hb
      · have ha : (ck ∩ ek).card = 0 := Nat.le_zero.mp (hb ▸ hab)
        rw [hb, ha]; norm_num
      · have hb' : (0:ℚ) < ((ck ∪ ek).card : ℚ) := by exact_mod_cast hb
        rw [div_lt_div_iff₀ (by norm_num) hb',
          show ((ck ∩ ek).card : ℚ) * 10 = 10 * ((ck ∩ ek).card : ℚ) by ring]
        norm_cast)

/-- Model of the inner `for existing_art in unique_articles` loop of
`deduplicate_articles` (src/app.py lines 60-70): scan the current
representatives in list order and return the first one declared a match;
a pair in which either keyword set is empty is skipped (`continue`).
`current` is the incoming article's keyword set, computed once at line 58. -/
def scanReps (current : Finset Str) : List Article → Option Article
  | [] => none
  | e :: rest =>
    let ek := get_keywords e.title
    if current = ∅ ∨ ek = ∅ then scanReps current rest
    else if matchCond current ek then some e
    else scanReps current rest

/-- Model of one iteration of the outer loop of `deduplicate_articles`
(src/app.py lines 57-71): if no representative matches, append the
article; if the first matching representative lacks a truthy image while
the incoming article has one, remove that representative (first
occurrence, as Python `list.remove`) and append the incoming article at
the end; otherwise leave the list unchanged. -/
def dedupStep (unique : List Article) (art : Article) : List Article :=
  match scanReps (get_keywords art.title) unique with
  | none => unique ++ [art]
  | some e =>
    if truthy art.urlToImage && !truthy e.urlToImage then
      unique.erase e ++ [art]
    else unique

/-- Model of `deduplicate_articles` (src/app.py lines 48-72). -/
def deduplicate_articles (articles : List Article) : List Article :=
  articles.foldl dedupStep []

/-- The merge criterion exactly as claim C1 words it: both keyword sets
non-empty, and the Jaccard ratio exceeds 0.3 or the intersection has at
least 3 elements. -/
def claimMatch (art e : Article) : Bool :=
  let ka := get_keywords art.title
  let ke := get_keywords e.title
  decide (ka ≠ ∅ ∧ ke ≠ ∅ ∧ matchCond ka ke)

/-- One deduplication step as described by claim C1: find the first
representative (in output-list order) satisfying `claimMatch`; merge into
it (with the image tie-break of the code) or append as a new
representative. -/
def specStep (unique : List Article) (art : Article) : List Article :=
  match unique.find? (claimMatch art) with
  | none => unique ++ [art]
  | some e =>
    if truthy art.urlToImage && !truthy e.urlToImage then
      unique.erase e ++ [art]
    else unique

/-! ## Provider adapters (src/app.py lines 134-200)

Each adapter issues at most one upstream request per call.  The outcome
of that request is an explicit parameter of the model; the `Bool`
component of the result records whether control reached the request at
all.  All adapters are total functions: the source's bare `except`
blocks turn every upstream failure into an empty list, never an
exception, and the model mirrors this by mapping `Upstream.err` to `[]`. -/

/-- Outcome of the single upstream request an adapter issues: `err`
models any exception raised inside the adapter's `try` block (network
error, non-2xx turned decode failure, malformed payload), `ok` carries
the decoded payload. -/
inductive Upstream (α : Type) where
  | err : Upstream α
  | ok (payload : α) : Upstream α
deriving DecidableEq, Repr

/-- The guard shared by all three adapters
(`if not query or len(query.strip()) < 2: return []`). -/
def shortQuery (query : Str) : Bool :=
  query.isEmpty || decide ((pyStrip query).length < 2)

/-- Python f-string interpolation renders `None` as the text `None`. -/
def pyStrOfOpt : Option Str → Str
  | none => strOf "None"
  | some s => s

/-- An item of the GNews library response; fields are the keys read at
src/app.py lines 145-149, `none` modelling a missing key. -/
structure GnewsItem where
  title : Option Str
  description : Option Str
  url : Option Str
  publishedDate : Option Str
deriving DecidableEq, Repr

/-- Normalized article built from one GNews item
(src/app.py lines 144-151). -/
def mkGnewsArticle (item : GnewsItem) : Article :=
  { title := strOf "⚡ " ++ pyStrOfOpt item.title
  , description := item.description.getD (strOf "Live update from Google News.")
  , url := item.url
  , urlToImage := none
  , publishedAt := item.publishedDate
  , source := strOf "GNews" }

/-- Model of `fetch_gnews_layer` (src/app.py lines 134-153). -/
def fetch_gnews_layer (query : Str) (upstream : Upstream (List GnewsItem)) :
    List Article × Bool :=
  if shortQuery query then ([], false)
  else
    match upstream with
    | .err => ([], true)
    | .ok items => (items.map mkGnewsArticle, true)

/-- An item of the NewsData response; fields are the keys read at
src/app.py lines 170-174. -/
structure NdItem where
  title : Option Str
  description : Option Str
  link : Option Str
  image_url : Option Str
  pubDate : Option Str
deriving DecidableEq, Repr

/-- Decoded NewsData payload: the keys read at src/app.py lines 167-168. -/
structure NdResponse where
  status : Option Str
  results : List NdItem
deriving DecidableEq, Repr

/-- Normalized article built from one NewsData item
(src/app.py lines 169-176). -/
def mkNewsdataArticle (item : NdItem) : Article :=
  { title := strOf "🇮🇳 " ++ pyStrOfOpt item.title
  , description := item.description.getD (strOf "Click to read more...")
  , url := item.link
  , urlToImage := item.image_url
  , publishedAt := item.pubDate
  , source := strOf "NewsData" }

/-- Model of `fetch_newsdata_layer` (src/app.py lines 155-178): skipped
without a request when the credential is absent or falsy; results capped
at 5; only a payload whose `status` is `success` contributes. -/
def fetch_newsdata_layer (query : Str) (ndKey : Option Str)
    (upstream : Upstream NdResponse) : List Article × Bool :=
  if shortQuery query then ([], false)
  else if truthy ndKey then
    match upstream with
    | .err => ([], true)
    | .ok resp =>
      (if resp.status = some (strOf "success") then
        (resp.results.take 5).map mkNewsdataArticle
      else [], true)
  else ([], false)

/-- Decoded NewsAPI payload: the keys read at src/app.py lines 190-191.
The raw upstream articles are passed through without any rewriting, so
they are modelled directly as `Article` values (whose fields are
whatever upstream sent, `source` included). -/
structure NaResponse where
  status : Option Str
  articles : List Article
deriving DecidableEq, Repr

/-- Model of `fetch_newsapi_layer` (src/app.py lines 180-193): on an
`ok`-status payload the upstream articles are appended unchanged; the
adapter performs no normalization of its own. -/
def fetch_newsapi_layer (apiKey : Str) (query : Str)
    (upstream : Upstream NaResponse) : List Article × Bool :=
  if shortQuery query then ([], false)
  else
    match upstream with
    | .err => ([], true)
    | .ok resp =>
      (if resp.status = some (strOf "ok") then resp.articles else [], true)

/-- Model of `fetch_news` (src/app.py lines 195-200): successively extend
an initially empty list with the three layers' outputs, then
deduplicate. -/
def fetch_news (apiKey query : Str) (u1 : Upstream NaResponse)
    (ndKey : Option Str) (u2 : Upstream NdResponse)
    (u3 : Upstream (List GnewsItem)) : List Article :=
  let all_articles : List Article := []
  let all_articles := all_articles ++ (fetch_newsapi_layer apiKey query u1).1
  let all_articles := all_articles ++ (fetch_newsdata_layer query ndKey u2).1
  let all_articles := all_articles ++ (fetch_gnews_layer query u3).1
  deduplicate_articles all_articles

/-! ## Quiz data and grading (src/app.py lines 273-283 and 348-360) -/

/-- A quiz question as produced by the external LLM capability. -/
structure QuizQuestion where
  question : Str
  options : List Str
  correct_answer : Str
  explanation : Option Str
deriving DecidableEq, Repr

/-- The per-question check of the grading loop (src/app.py line 354):
the stored user answer is compared with `correct_answer` by exact
string equality; an unanswered question (`None`) never matches. -/
def questionScored (q : QuizQuestion) (userAns : Option Str) : Bool :=
  userAns == some q.correct_answer

/-- Model of the grading loop (src/app.py lines 351-354): enumerate the
quiz and count the questions whose stored answer is scored correct. -/
def quizScore (quiz : List QuizQuestion) (answers : Nat → Option Str) : Nat :=
  ((List.range quiz.length).zip quiz).foldl
    (fun score p => if questionScored p.2 (answers p.1) then score + 1 else score) 0

/-- Model of the question-count policy of the Start Quiz handler
(src/app.py lines 276-277): `10 if num_articles == 1 else num_articles * 5`. -/
def quizQuestionCount (studyList : List Article) : Nat :=
  if studyList.length = 1 then 10 else studyList.length * 5

/-! ## LLM response handling (src/app.py lines 74-116)

The model response is a free-form string.  The source strips the
Markdown code-fence markers, then `re.search(r'\x7b.*\x7d', clean,
re.DOTALL)` (greedy, dot-matches-newline) selects the substring from the
*first* opening brace to the *last* closing brace, which `json.loads`
then parses; the quiz variant does the same with square brackets.  The
JSON parser below models `json.loads` by a recursive-descent parser for
the JSON value grammar (objects, arrays, strings with the standard
escapes, numbers kept as raw text, `true`/`false`/`null`); failure of
extraction or parsing is the `none` result of the bare `except`. -/

/-- The opening brace character (written by code to satisfy the
surrounding text conventions). -/
def lbrace : Char := Char.ofNat 123

/-- The closing brace character. -/
def rbrace : Char := Char.ofNat 125

/-- A JSON value as produced by `json.loads`; numbers are kept as their
raw source text (their numeric value plays no role in the core). -/
inductive JVal where
  | null : JVal
  | bool (b : Bool) : JVal
  | num (raw : Str) : JVal
  | str (s : Str) : JVal
  | arr (elems : List JVal) : JVal
  | obj (fields : List (Str × JVal)) : JVal
deriving Repr

/-- JSON insignificant whitespace (RFC 8259: space, tab, LF, CR). -/
def isJsonWs (c : Char) : Bool :=
  c == ' ' || c == '\t' || c == '\n' || c == '\r'

/-- Drop leading JSON whitespace. -/
def skipWs (s : Str) : Str := s.dropWhile isJsonWs

/-- Value of one hexadecimal digit. -/
def hexVal (c : Char) : Option Nat :=
  if '0' ≤ c ∧ c ≤ '9' then some (c.toNat - 48)
  else if 'a' ≤ c ∧ c ≤ 'f' then some (c.toNat - 87)
  else if 'A' ≤ c ∧ c ≤ 'F' then some (c.toNat - 55)
  else none

/-- Parse the body of a JSON string after the opening quote, decoding
the standard escapes; returns the decoded text and the remainder after
the closing quote. -/
def parseStrBody : Nat → Str → Option (Str × Str)
  | 0, _ => none
  | _ + 1, [] => none
  | fuel + 1, c :: cs =>
    if c = '"' then some ([], cs)
    else if c = '\\' then
      match cs with
      | [] => none
      | e :: cs2 =>
        let dec : Option (Char × Str) :=
          if e = '"' then some ('"', cs2)
          else if e = '\\' then some ('\\', cs2)
          else if e = '/' then some ('/', cs2)
          else if e = 'b' then some ('\x08', cs2)
          else if e = 'f' then some ('\x0c', cs2)
          else if e = 'n' then some ('\n', cs2)
          else if e = 'r' then some ('\r', cs2)
          else if e = 't' then some ('\t', cs2)
          else if e = 'u' then
            match cs2 with
            | h1 :: h2 :: h3 :: h4 :: cs3 =>
              match hexVal h1, hexVal h2, hexVal h3, hexVal h4 with
              | some a, some b, some c3, some d =>
                some (Char.ofNat (((a * 16 + b) * 16 + c3) * 16 + d), cs3)
              | _, _, _, _ => none
            | _ => none
          else none
        match dec with
        | none => none
        | some (ch, rest) =>
          match parseStrBody fuel rest with
          | none => none
          | some (out, rest2) => some (ch :: out, rest2)
    else
      match parseStrBody fuel cs with
      | none => none
      | some (out, rest) => some (c :: out, rest)

/-- Parse the digits (and optional fraction and exponent) of a JSON
number, the optional leading minus having been consumed; returns the raw
consumed text. -/
def parseNumRest (s : Str) : Option (Str × Str) :=
  let ds := s.takeWhile Char.isDigit
  if ds.isEmpty then none
  else
    let rest1 := s.drop ds.length
    let fr : Str × Str :=
      match rest1 with
      | '.' :: r =>
        let fs := r.takeWhile Char.isDigit
        if fs.isEmpty then ([], rest1) else ('.' :: fs, r.drop fs.length)
      | _ => ([], rest1)
    let rest2 := fr.2
    let ex : Str × Str :=
      match rest2 with
      | c :: r =>
        if c = 'e' ∨ c = 'E' then
          match r with
          | sgn :: r2 =>
            if sgn = '+' ∨ sgn = '-' then
              let es := r2.takeWhile Char.isDigit
              if es.isEmpty then ([], rest2)
              else (c :: sgn :: es, r2.drop es.length)
            else
              let es := r.takeWhile Char.isDigit
              if es.isEmpty then ([], rest2) else (c :: es, r.drop es.length)
          | [] => ([], rest2)
        else ([], rest2)
      | [] => ([], rest2)
    some (ds ++ fr.1 ++ ex.1, ex.2)

mutual

/-- Parse one JSON value at the head of the input (leading whitespace
already skipped); returns the value and the unconsumed remainder. -/
def parseVal : Nat → Str → Option (JVal × Str)
  | 0, _ => none
  | fuel + 1, s =>
    match s with
    | [] => none
    | c :: cs =>
      if c = lbrace then parseObjBody fuel (skipWs cs)
      else if c = '[' then parseArrBody fuel (skipWs cs)
      else if c = '"' then
        match parseStrBody (cs.length + 1) cs with
        | none => none
        | some (txt, rest) => some (.str txt, rest)
      else if List.isPrefixOf (strOf "true") (c :: cs) then
        some (.bool true, (c :: cs).drop 4)
      else if List.isPrefixOf (strOf "false") (c :: cs) then
        some (.bool false, (c :: cs).drop 5)
      else if List.isPrefixOf (strOf "null") (c :: cs) then
        some (.null, (c :: cs).drop 4)
      else if c = '-' then
        match parseNumRest cs with
        | none => none
        | some (ds, rest) => some (.num ('-' :: ds), rest)
      else if c.isDigit then
        match parseNumRest (c :: cs) with
        | none => none
        | some (ds, rest) => some (.num ds, rest)
      else none

/-- Parse an object body after the opening brace (whitespace skipped):
either an immediate closing brace or a member list. -/
def parseObjBody : Nat → Str → Option (JVal × Str)
  | 0, _ => none
  | fuel + 1, s =>
    match s with
    | [] => none
    | c :: cs =>
      if c = rbrace then some (.obj [], cs)
      else
        match parseObjMembers fuel (c :: cs) with
        | none => none
        | some (fields, rest) => some (.obj fields, rest)

/-- Parse one or more `"key": value` members separated by commas,
finished by the closing brace. -/
def parseObjMembers : Nat → Str → Option (List (Str × JVal) × Str)
  | 0, _ => none
  | fuel + 1, s =>
    match s with
    | '"' :: cs =>
      match parseStrBody (cs.length + 1) cs with
      | none => none
      | some (key, r1) =>
        match skipWs r1 with
        | ':' :: r2 =>
          match parseVal fuel (skipWs r2) with
          | none => none
          | some (v, r3) =>
            match skipWs r3 with
            | ',' :: r4 =>
              match parseObjMembers fuel (skipWs r4) with
              | none => none
              | some (fields, rest) => some ((key, v) :: fields, rest)
            | c :: r4 =>
              if c = rbrace then some ([(key, v)], r4) else none
            | [] => none
        | _ => none
    | _ => none

/-- Parse an array body after the opening bracket (whitespace skipped):
either an immediate closing bracket or an element list. -/
def parseArrBody : Nat → Str → Option (JVal × Str)
  | 0, _ => none
  | fuel + 1, s =>
    match s with
    | [] => none
    | c :: cs =>
      if c = ']' then some (.arr [], cs)
      else
        match parseArrElems fuel (c :: cs) with
        | none => none
        | some (elems, rest) => some (.arr elems, rest)

/-- Parse one or more array elements separated by commas, finished by
the closing bracket. -/
def parseArrElems : Nat → Str → Option (List JVal × Str)
  | 0, _ => none
  | fuel + 1, s =>
    match parseVal fuel s with
    | none => none
    | some (v, r1) =>
      match skipWs r1 with
      | ',' :: r2 =>
        match parseArrElems fuel (skipWs r2) with
        | none => none
        | some (elems, rest) => some (v :: elems, rest)
      | ']' :: r2 => some ([v], r2)
      | _ => none

end

/-- Model of `json.loads`: parse exactly one JSON value surrounded by
optional whitespace; anything else is a failure (`None` through the
source's `except`). -/
def parseJsonStr (s : Str) : Option JVal :=
  match parseVal (s.length + 8) (skipWs s) with
  | some (v, rest) => if (skipWs rest).isEmpty then some v else none
  | none => none

/-- Model of Python `str.replace(pat, repl)` (left-to-right,
non-overlapping), with fuel equal to the input length. -/
def replaceAllFuel (pat repl : Str) : Nat → Str → Str
  | 0, s => s
  | _ + 1, [] => []
  | fuel + 1, c :: cs =>
    if pat.isPrefixOf (c :: cs) ∧ ¬pat.isEmpty then
      repl ++ replaceAllFuel pat repl fuel (cs.drop (pat.length - 1))
    else
      c :: replaceAllFuel pat repl fuel cs

/-- Replace every occurrence of `pat` in `s` by `repl`. -/
def replaceAll (pat repl s : Str) : Str := replaceAllFuel pat repl s.length s

/-- The greedy delimiter extraction of `re.search` with pattern
open-dot-star-close under `re.DOTALL`: the substring from the first
`opn` to the last `cls`, or `none` when no such pair exists. -/
def extractDelim (opn cls : Char) (s : Str) : Option Str :=
  let t := ((s.dropWhile (· ≠ opn)).reverse.dropWhile (· ≠ cls)).reverse
  if t.isEmpty then none else some t

/-- The response clean-up shared by both requesters (src/app.py lines 89
and 113): delete the code-fence markers, then strip surrounding
whitespace. -/
def cleanResponse (text : Str) : Str :=
  pyStrip (replaceAll (strOf "```") [] (replaceAll (strOf "```json") [] text))

/-- Model of the response handling of `generate_deep_dive`
(src/app.py lines 87-92): extract the brace-delimited span and parse it;
with no such span, parse the whole cleaned response; any failure is
`none` (the bare `except` returning `None`). -/
def generate_deep_dive (respText : Str) : Option JVal :=
  let clean := cleanResponse respText
  match extractDelim lbrace rbrace clean with
  | some t => parseJsonStr t
  | none => parseJsonStr clean

/-- Model of the response handling of `generate_quiz_json`
(src/app.py lines 111-116): same policy with square brackets; any
failure yields the empty list. -/
def generate_quiz_json (respText : Str) : JVal :=
  let clean := cleanResponse respText
  match
    (match extractDelim '[' ']' clean with
     | some t => parseJsonStr t
     | none => parseJsonStr clean) with
  | some v => v
  | none => JVal.arr []

/-! ## Concrete instances used by witnesses and counterexamples -/

/-- An article with no image (`urlToImage` is `None`/absent). -/
def artNoImage : Article :=
  ⟨strOf "apple unveils iphone officially", strOf "d", none, none, none, strOf "s"⟩

/-- An article whose `urlToImage` is the empty string: a non-null value
that Python truthiness treats as false. -/
def artEmptyImage : Article :=
  ⟨strOf "apple unveils iphone officially", strOf "d", none, some [], none, strOf "s"⟩

/-- An article carrying a real (truthy) image URL. -/
def artRealImage : Article :=
  ⟨strOf "apple unveils iphone officially", strOf "d", none,
    some (strOf "http://img"), none, strOf "s"⟩

/-- A raw upstream NewsAPI article whose `source` was set by the upstream
service (not by the adapter). -/
def bbcArticle : Article :=
  ⟨strOf "markets rally on rate cut hopes", strOf "desc", some (strOf "http://x"),
    none, some (strOf "2024-12-01"), strOf "BBC"⟩

/-- A successful NewsAPI payload carrying `bbcArticle`. -/
def naRespBBC : NaResponse := ⟨some (strOf "ok"), [bbcArticle]⟩

/-- A quiz question whose `correct_answer` matches none of its options. -/
def badQuestion : QuizQuestion :=
  ⟨strOf "Q?", [strOf "A", strOf "B", strOf "C", strOf "D"], strOf "E", none⟩

/-- The concrete JSON object text used by the C8 instances. -/
def jObj : Str := lbrace :: strOf "\"a\": 1" ++ [rbrace]

/-- The parse of `jObj`. -/
def vObj : JVal := JVal.obj [(strOf "a", JVal.num (strOf "1"))]

/-- A model response with prose around a single JSON object. -/
def respProse : Str := strOf "Sure! " ++ jObj ++ strOf " done."

/-- A model response containing a well-formed JSON object followed by a
stray closing brace. -/
def respStray : Str := jObj ++ strOf " extra " ++ [rbrace]

/-! ## Theorems -/

theorem scanReps_eq_find (art : Article) :
    ∀ l : List Article, scanReps (get_keywords art.title) l = l.find? (claimMatch art)
  | [] => rfl
  | e :: rest => by
    have ih := scanReps_eq_find art rest
    simp only [scanReps]
    by_cases h1 : get_keywords art.title = ∅ ∨ get_keywords e.title = ∅
    · rw [if_pos h1, ih, List.find?_cons_of_neg]
      simp only [claimMatch, decide_eq_true_eq]
      rintro ⟨hn1, hn2, _⟩
      rcases h1 with h1 | h1
      · exact hn1 h1
      · exact hn2 h1
    · rw [if_neg h1]
      push_neg at h1
      by_cases h3 : matchCond (get_keywords art.title) (get_keywords e.title)
      · rw [if_pos h3, List.find?_cons_of_pos]
        simp only [claimMatch, decide_eq_true_eq]
        exact ⟨h1.1, h1.2, h3⟩
      · rw [if_neg h3, ih, List.find?_cons_of_neg]
        simp only [claimMatch, decide_eq_true_eq]
        rintro ⟨_, _, hm⟩
        exact h3 hm

theorem dedupStep_eq_specStep (u : List Article) (art : Article) :
    dedupStep u art = specStep u art := by
  unfold dedupStep specStep
  rw [scanReps_eq_find]

/-- C1: `deduplicate_articles` merges an incoming article exactly when a
first representative, in output-list order, satisfies the claim's match
criterion (`claimMatch`: both keyword sets non-empty and Jaccard ratio
above 0.3 or overlap at least 3, over `get_keywords` title keyword
sets); a pair with an empty keyword set never merges, and a
non-matching article is appended as a new representative. -/
theorem claim1_dedup_match_rule (articles : List Article) :
    deduplicate_articles articles = articles.foldl specStep [] := by
  unfold deduplicate_articles
  have h : dedupStep = specStep :=
    funext fun u => funext fun a => dedupStep_eq_specStep u a
  rw [h]

theorem dedupStep_eq_append (u : List Article) (a : Article)
    (h : scanReps (get_keywords a.title) u = none) :
    dedupStep u a = u ++ [a] := by
  unfold dedupStep
  rw [h]

theorem dedupStep_eq_merge (u : List Article) (a e : Article)
    (h : scanReps (get_keywords a.title) u = some e) :
    dedupStep u a =
      if truthy a.urlToImage && !truthy e.urlToImage then u.erase e ++ [a]
      else u := by
  unfold dedupStep
  rw [h]

theorem dedupStep_length_le (u : List Article) (a : Article) :
    (dedupStep u a).length ≤ u.length + 1 := by
  cases h : scanReps (get_keywords a.title) u with
  | none => simp [dedupStep_eq_append u a h]
  | some e =>
    rw [dedupStep_eq_merge u a e h]
    by_cases hb : (truthy a.urlToImage && !truthy e.urlToImage) = true
    · rw [if_pos hb]
      have := (List.erase_sublist e u).length_le
      simp only [List.length_append, List.length_cons, List.length_nil]
      omega
    · rw [if_neg hb]
      exact Nat.le_succ _

theorem foldl_dedupStep_length : ∀ (l init : List Article),
    (l.foldl dedupStep init).length ≤ init.length + l.length
  | [], _ => by simp
  | a :: l, init => by
    have h1 := foldl_dedupStep_length l (dedupStep init a)
    have h2 := dedupStep_length_le init a
    simp only [List.foldl_cons, List.length_cons]
    omega

theorem dedupStep_mem (u : List Article) (a x : Article)
    (hx : x ∈ dedupStep u a) : x ∈ u ∨ x = a := by
  cases h : scanReps (get_keywords a.title) u with
  | none =>
    rw [dedupStep_eq_append u a h] at hx
    simpa using hx
  | some e =>
    rw [dedupStep_eq_merge u a e h] at hx
    by_cases hb : (truthy a.urlToImage && !truthy e.urlToImage) = true
    · rw [if_pos hb] at hx
      rcases List.mem_append.mp hx with h' | h'
      · exact .inl (List.mem_of_mem_erase h')
      · exact .inr (by simpa using h')
    · rw [if_neg hb] at hx
      exact .inl hx

theorem foldl_dedupStep_mem : ∀ (l init : List Article) (x : Article),
    x ∈ l.foldl dedupStep init → x ∈ init ∨ x ∈ l
  | [], _, _, hx => .inl hx
  | a :: l, init, x, hx => by
    rcases foldl_dedupStep_mem l (dedupStep init a) x hx with h | h
    · rcases dedupStep_mem init a x h with h' | h'
      · exact .inl h'
      · exact .inr (by simp [h'])
    · exact .inr (List.mem_cons_of_mem _ h)

/-- C2: the output of `deduplicate_articles` is never longer than its
input, and every output element is an element of the input — the
deduplicator never synthesizes a new article. -/
theorem claim2_output_subset (articles : List Article) :
    (deduplicate_articles articles).length ≤ articles.length ∧
    ∀ x ∈ deduplicate_articles articles, x ∈ articles := by
  constructor
  · simpa [deduplicate_articles] using foldl_dedupStep_length articles []
  · intro x hx
    rcases foldl_dedupStep_mem articles [] x hx with h | h
    · simp at h
    · exact h

/-- Witness for C2 at a concrete input. -/
theorem claim2_witness :
    (deduplicate_articles [artNoImage]).length ≤ 1 ∧ artNoImage ∈ [artNoImage] :=
  ⟨(claim2_output_subset [artNoImage]).1,
    (claim2_output_subset [artNoImage]).2 artNoImage (by decide)⟩

/-- C3 counterexample: the incoming article `artEmptyImage` carries a
non-null image (the empty string) and is declared a duplicate of
`artNoImage`, whose image is null; the claim then demands that the
representative be removed and the incoming article appended, i.e. output
`[artEmptyImage]` — but the code tests Python truthiness, the empty
string is falsy, and the output keeps the old representative. -/
theorem claim3_counterexample :
    deduplicate_articles [artNoImage, artEmptyImage] = [artNoImage] ∧
    scanReps (get_keywords artEmptyImage.title) [artNoImage] = some artNoImage ∧
    artEmptyImage.urlToImage = some [] ∧
    artNoImage.urlToImage = none := by decide

/-- C3 (amended): whenever the incoming article is declared a duplicate
of a representative, the representative is removed and the incoming
article appended at the end exactly when the incoming image is truthy
(non-null and non-empty) and the representative's image is not; in every
other match case the output list is unchanged. -/
theorem claim3_image_tiebreak (u : List Article) (art e : Article)
    (h : scanReps (get_keywords art.title) u = some e) :
    ((truthy art.urlToImage = true ∧ truthy e.urlToImage = false) →
      dedupStep u art = u.erase e ++ [art]) ∧
    (¬(truthy art.urlToImage = true ∧ truthy e.urlToImage = false) →
      dedupStep u art = u) := by
  rw [dedupStep_eq_merge u art e h]
  constructor
  · rintro ⟨h1, h2⟩
    simp [h1, h2]
  · intro hn
    have hb : (truthy art.urlToImage && !truthy e.urlToImage) = false := by
      cases ht : truthy art.urlToImage <;> cases he : truthy e.urlToImage <;>
        simp_all
    simp [hb]

/-- Witness for the amended C3: a truthy-image duplicate replaces a
null-image representative, the cluster moving to the end. -/
theorem claim3_witness :
    dedupStep [artNoImage] artRealImage = [artNoImage].erase artNoImage ++ [artRealImage] :=
  (claim3_image_tiebreak [artNoImage] artRealImage artNoImage (by decide)).1
    (by decide)

theorem newsapi_err_fst (apiKey query : Str) :
    (fetch_newsapi_layer apiKey query .err).1 = [] := by
  unfold fetch_newsapi_layer
  by_cases h : shortQuery query = true
  · rw [if_pos h]
  · rw [if_neg h]

theorem newsdata_err_fst (query : Str) (ndKey : Option Str) :
    (fetch_newsdata_layer query ndKey .err).1 = [] := by
  unfold fetch_newsdata_layer
  by_cases h : shortQuery query = true
  · rw [if_pos h]
  · rw [if_neg h]
    by_cases hk : truthy ndKey = true
    · rw [if_pos hk]
    · rw [if_neg hk]

theorem gnews_err_fst (query : Str) :
    (fetch_gnews_layer query .err).1 = [] := by
  unfold fetch_gnews_layer
  by_cases h : shortQuery query = true
  · rw [if_pos h]
  · rw [if_neg h]

/-- C4: `fetch_news` equals `deduplicate_articles` applied to the
concatenation — in exactly this order — of the NewsAPI (GeneralNews),
NewsData (RegionalNews) and GNews (HeadlineAggregator) adapter outputs,
for every upstream outcome; and even when both earlier adapters fail,
the third adapter's output still reaches the pipeline (no
short-circuiting). -/
theorem claim4_fetch_pipeline :
    (∀ (apiKey query : Str) (u1 : Upstream NaResponse) (ndKey : Option Str)
        (u2 : Upstream NdResponse) (u3 : Upstream (List GnewsItem)),
      fetch_news apiKey query u1 ndKey u2 u3 =
        deduplicate_articles ((fetch_newsapi_layer apiKey query u1).1 ++
          ((fetch_newsdata_layer query ndKey u2).1 ++
            (fetch_gnews_layer query u3).1))) ∧
    (∀ (apiKey query : Str) (ndKey : Option Str)
        (u3 : Upstream (List GnewsItem)),
      fetch_news apiKey query .err ndKey .err u3 =
        deduplicate_articles (fetch_gnews_layer query u3).1) := by
  constructor
  · intro apiKey query u1 ndKey u2 u3
    simp [fetch_news, List.append_assoc]
  · intro apiKey query ndKey u3
    simp [fetch_news, newsapi_err_fst, newsdata_err_fst]

/-- C5 counterexample: on a successful payload the NewsAPI adapter
passes the upstream article through unchanged, so the article's `source`
is whatever upstream sent (`BBC` here) — not a provider identifier set
by the producing adapter, unlike the two other adapters. -/
theorem claim5_counterexample :
    (fetch_newsapi_layer (strOf "key") (strOf "technology") (.ok naRespBBC)).1 =
      [bbcArticle] ∧
    bbcArticle.source = strOf "BBC" ∧
    bbcArticle.source ≠ strOf "GNews" ∧
    bbcArticle.source ≠ strOf "NewsData" := by decide

/-- C5 (amended): the GNews and NewsData adapters construct normalized
articles whose `source` is the producing provider's identifier (`GNews`
never carrying an image); the NewsAPI adapter instead returns the
upstream payload's articles unchanged and sets no `source` of its own. -/
theorem claim5_adapter_shape :
    (∀ item : GnewsItem,
      (mkGnewsArticle item).source = strOf "GNews" ∧
      (mkGnewsArticle item).urlToImage = none) ∧
    (∀ item : NdItem, (mkNewsdataArticle item).source = strOf "NewsData") ∧
    (∀ (apiKey query : Str) (resp : NaResponse),
      shortQuery query = false → resp.status = some (strOf "ok") →
      (fetch_newsapi_layer apiKey query (.ok resp)).1 = resp.articles) := by
  refine ⟨fun _ => ⟨rfl, rfl⟩, fun _ => rfl, ?_⟩
  intro apiKey query resp hq hs
  unfold fetch_newsapi_layer
  rw [hq]
  simp [hs]

/-- Witness for the amended C5 at a concrete successful payload. -/
theorem claim5_witness :
    (fetch_newsapi_layer (strOf "key") (strOf "technology") (.ok naRespBBC)).1 =
      naRespBBC.articles :=
  claim5_adapter_shape.2.2 (strOf "key") (strOf "technology") naRespBBC
    (by decide) (by decide)

/-- C6: a query whose trimmed length is below 2 makes every adapter
return the empty list without reaching its upstream request (the `false`
flag); and every upstream failure outcome — an exception
(`Upstream.err`: network error or malformed payload) or a non-success
status — yields the empty list.  The adapters are total functions, so no
error ever propagates to the caller. -/
theorem claim6_adapter_failsoft :
    (∀ (query : Str) (u : Upstream (List GnewsItem)),
      (pyStrip query).length < 2 → fetch_gnews_layer query u = ([], false)) ∧
    (∀ (query : Str) (ndKey : Option Str) (u : Upstream NdResponse),
      (pyStrip query).length < 2 → fetch_newsdata_layer query ndKey u = ([], false)) ∧
    (∀ (apiKey query : Str) (u : Upstream NaResponse),
      (pyStrip query).length < 2 → fetch_newsapi_layer apiKey query u = ([], false)) ∧
    (∀ query : Str, (fetch_gnews_layer query .err).1 = []) ∧
    (∀ (query : Str) (ndKey : Option Str),
      (fetch_newsdata_layer query ndKey .err).1 = []) ∧
    (∀ apiKey query : Str, (fetch_newsapi_layer apiKey query .err).1 = []) ∧
    (∀ (apiKey query : Str) (resp : NaResponse),
      resp.status ≠ some (strOf "ok") →
      (fetch_newsapi_layer apiKey query (.ok resp)).1 = []) ∧
    (∀ (query : Str) (ndKey : Option Str) (resp : NdResponse),
      resp.status ≠ some (strOf "success") →
      (fetch_newsdata_layer query ndKey (.ok resp)).1 = []) := by
  have hshort : ∀ query : Str, (pyStrip query).length < 2 → shortQuery query = true := by
    intro query h
    unfold shortQuery
    rw [decide_eq_true h, Bool.or_true]
  refine ⟨?_, ?_, ?_, gnews_err_fst, newsdata_err_fst, newsapi_err_fst, ?_, ?_⟩
  · intro query u h
    unfold fetch_gnews_layer
    rw [if_pos (hshort query h)]
  · intro query ndKey u h
    unfold fetch_newsdata_layer
    rw [if_pos (hshort query h)]
  · intro apiKey query u h
    unfold fetch_newsapi_layer
    rw [if_pos (hshort query h)]
  · intro apiKey query resp hs
    unfold fetch_newsapi_layer
    by_cases h : shortQuery query = true
    · rw [if_pos h]
    · rw [if_neg h]
      simp [hs]
  · intro query ndKey resp hs
    unfold fetch_newsdata_layer
    by_cases h : shortQuery query = true
    · rw [if_pos h]
    · rw [if_neg h]
      by_cases hk : truthy ndKey = true
      · rw [if_pos hk]
        simp [hs]
      · rw [if_neg hk]

/-- Witness for C6: the length-1 query `a` short-circuits the GNews
adapter before any request, and a non-`ok` NewsAPI status yields an
empty list. -/
theorem claim6_witness :
    fetch_gnews_layer (strOf "a") (.ok [⟨some (strOf "t"), none, none, none⟩]) =
      ([], false) ∧
    (fetch_newsapi_layer (strOf "k") (strOf "technology")
      (.ok ⟨some (strOf "error"), [bbcArticle]⟩)).1 = [] :=
  ⟨claim6_adapter_failsoft.1 (strOf "a") _ (by decide),
    claim6_adapter_failsoft.2.2.2.2.2.2.1 (strOf "k") (strOf "technology") _
      (by decide)⟩

/-- C7: quiz generation requests exactly 10 questions when the study
list has exactly one article, and exactly 5 per article otherwise. -/
theorem claim7_question_count :
    (∀ studyList : List Article, studyList.length = 1 →
      quizQuestionCount studyList = 10) ∧
    (∀ studyList : List Article, studyList.length ≠ 1 →
      quizQuestionCount studyList = 5 * studyList.length) := by
  constructor <;> intro l h <;> simp [quizQuestionCount, h, Nat.mul_comm]

/-- Witness for C7: one article requests 10 questions, three request 15. -/
theorem claim7_witness :
    quizQuestionCount [artNoImage] = 10 ∧
    quizQuestionCount [artNoImage, artRealImage, artEmptyImage] = 15 :=
  ⟨claim7_question_count.1 [artNoImage] (by decide),
    by simpa using (claim7_question_count.2
      [artNoImage, artRealImage, artEmptyImage] (by decide))⟩

/-- C9: when a question's `correct_answer` matches no entry of its
options, no answer drawn from the options is ever scored correct by the
grading comparison. -/
theorem claim9_grading (q : QuizQuestion) (a : Str)
    (hc : q.correct_answer ∉ q.options) (ha : a ∈ q.options) :
    questionScored q (some a) = false := by
  simp only [questionScored, beq_eq_false_iff_ne, ne_eq, Option.some.injEq]
  intro h
  exact hc (h ▸ ha)

/-- Witness for C9 on a concrete malformed question. -/
theorem claim9_witness : questionScored badQuestion (some (strOf "A")) = false :=
  claim9_grading badQuestion (strOf "A") (by decide) (by decide)

theorem get_keywords_eq (text : Str) :
    get_keywords text =
      ((splitWs ((text.map pyLower).filter keepChar)).toFinset).filter
        (fun w => w ∉ stopWords ∧ 2 < w.length) := by
  cases text with
  | nil => decide
  | cons c cs => rfl

theorem splitWsAux_ws_prefix : ∀ (w s : Str), (∀ c ∈ w, isPySpace c = true) →
    splitWsAux (w ++ s) [] = splitWsAux s []
  | [], _, _ => rfl
  | c :: cs, s, hw => by
    have hc : isPySpace c = true := hw c (List.mem_cons_self c cs)
    show splitWsAux (c :: (cs ++ s)) [] = _
    simp only [splitWsAux, hc, if_true, List.isEmpty_nil]
    exact splitWsAux_ws_prefix cs s fun x hx => hw x (List.mem_cons_of_mem c hx)

theorem upper_range_alphanum (c : Char) (h1 : 'A' ≤ c) (h2 : c ≤ 'Z') :
    c.isAlphanum = true := by
  simp only [Char.isAlphanum, Char.isAlpha, Char.isUpper, Bool.or_eq_true,
    Bool.and_eq_true, decide_eq_true_eq]
  exact Or.inl (Or.inl ⟨h1, h2⟩)

theorem pyLower_of_not_alphanum (c : Char) (h : c.isAlphanum = false) :
    pyLower c = c := by
  unfold pyLower
  rw [if_neg]
  rintro ⟨h1, h2⟩
  rw [upper_range_alphanum c h1 h2] at h
  exact absurd h (by simp)

theorem filtered_marker_ws (p : Str) (hp : ∀ c ∈ p, c.isAlphanum = false) :
    ∀ c ∈ (p.map pyLower).filter keepChar, isPySpace c = true := by
  intro c hc
  rw [List.mem_filter] at hc
  obtain ⟨hc1, hc2⟩ := hc
  rw [List.mem_map] at hc1
  obtain ⟨c0, hc0, rfl⟩ := hc1
  have h0 : c0.isAlphanum = false := hp c0 hc0
  rw [pyLower_of_not_alphanum c0 h0] at hc2 ⊢
  unfold keepChar at hc2
  rw [h0, Bool.false_or] at hc2
  exact hc2

/-- C10: prepending a marker made of non-alphanumeric characters
followed by a space — such as the live-update marker of the GNews
adapter or the regional marker of the NewsData adapter — leaves the
title keyword set, and hence every deduplication decision, unchanged. -/
theorem claim10_marker_invariance (p t : Str)
    (hp : ∀ c ∈ p, c.isAlphanum = false) :
    get_keywords (p ++ ' ' :: t) = get_keywords t := by
  rw [get_keywords_eq, get_keywords_eq]
  have hclean : ((p ++ ' ' :: t).map pyLower).filter keepChar
      = ((p.map pyLower).filter keepChar) ++
          ' ' :: ((t.map pyLower).filter keepChar) := by
    rw [List.map_append, List.filter_append]
    congr 1
  rw [hclean]
  have hW : ∀ c ∈ ((p.map pyLower).filter keepChar) ++ [' '],
      isPySpace c = true := by
    intro c hc
    rcases List.mem_append.mp hc with h | h
    · exact filtered_marker_ws p hp c h
    · have : c = ' ' := by simpa using h
      subst this
      rfl
  have hsplit : splitWs (((p.map pyLower).filter keepChar) ++
      ' ' :: ((t.map pyLower).filter keepChar))
      = splitWs ((t.map pyLower).filter keepChar) := by
    unfold splitWs
    rw [show ((p.map pyLower).filter keepChar) ++
        ' ' :: ((t.map pyLower).filter keepChar)
        = (((p.map pyLower).filter keepChar) ++ [' ']) ++
          ((t.map pyLower).filter keepChar) by
      rw [List.append_assoc]
      rfl]
    exact splitWsAux_ws_prefix _ _ hW
  rw [hsplit]

/-- Witness for C10 with the concrete live-update marker character. -/
theorem claim10_witness :
    get_keywords (['⚡'] ++ ' ' :: strOf "apple launches iphone") =
      get_keywords (strOf "apple launches iphone") :=
  claim10_marker_invariance ['⚡'] (strOf "apple launches iphone") (by decide)

theorem dropWhile_append_all (p : Char → Bool) :
    ∀ (l₁ l₂ : Str), (∀ c ∈ l₁, p c = true) →
      (l₁ ++ l₂).dropWhile p = l₂.dropWhile p
  | [], _, _ => rfl
  | c :: cs, l₂, h => by
    have hc := h c (List.mem_cons_self c cs)
    show List.dropWhile p (c :: (cs ++ l₂)) = _
    rw [List.dropWhile_cons, if_pos hc]
    exact dropWhile_append_all p cs l₂ fun x hx => h x (List.mem_cons_of_mem c hx)

theorem extractDelim_prose (opn cls : Char) (p₁ j₁ p₂ : Str)
    (h₁ : ∀ c ∈ p₁, c ≠ opn) (h₂ : ∀ c ∈ p₂, c ≠ cls)
    (hj : ∃ j', j₁ = opn :: j') (hj2 : ∃ j'', j₁ = j'' ++ [cls]) :
    extractDelim opn cls (p₁ ++ j₁ ++ p₂) = some j₁ := by
  obtain ⟨j', hcons⟩ := hj
  obtain ⟨j'', hsnoc⟩ := hj2
  have hopn : (fun c => decide (c ≠ opn)) opn = false := by simp
  have hcls : (fun c => decide (c ≠ cls)) cls = false := by simp
  have hd1 : (p₁ ++ j₁ ++ p₂).dropWhile (fun c => decide (c ≠ opn)) = j₁ ++ p₂ := by
    rw [List.append_assoc,
      dropWhile_append_all _ p₁ (j₁ ++ p₂)
        (fun c hc => decide_eq_true (h₁ c hc))]
    rw [hcons, List.cons_append, List.dropWhile_cons, if_neg (by simp)]
  have hd2 : (j₁ ++ p₂).reverse.dropWhile (fun c => decide (c ≠ cls))
      = j₁.reverse := by
    rw [List.reverse_append,
      dropWhile_append_all _ p₂.reverse j₁.reverse
        (fun c hc => decide_eq_true (h₂ c (List.mem_reverse.mp hc)))]
    rw [hsnoc, List.reverse_append, List.reverse_singleton, List.singleton_append,
      List.dropWhile_cons, if_neg (by simp)]
  unfold extractDelim
  rw [hd1, hd2, List.reverse_reverse]
  rw [hcons]
  rfl

/-- C8 (amended): both requesters strip the code-fence markers and then
apply the greedy regex extraction — the substring from the first opening
delimiter to the last closing one — and parse it with `json.loads`.
When the cleaned response is a single well-formed delimited JSON payload
surrounded by prose that contains no opening delimiter before it and no
closing delimiter after it, that payload is parsed and returned; when
extraction finds no delimited span the whole cleaned response is parsed;
any extraction or parse failure yields the failure sentinel with no
partial result — `none` for the analysis requester and the empty list
for the quiz requester. -/
theorem claim8_extraction :
    (∀ (r p₁ j₁ p₂ : Str) (v : JVal), cleanResponse r = p₁ ++ j₁ ++ p₂ →
      (∀ c ∈ p₁, c ≠ lbrace) → (∀ c ∈ p₂, c ≠ rbrace) →
      (∃ j', j₁ = lbrace :: j') → (∃ j'', j₁ = j'' ++ [rbrace]) →
      parseJsonStr j₁ = some v →
      generate_deep_dive r = some v) ∧
    (∀ r t : Str, extractDelim lbrace rbrace (cleanResponse r) = some t →
      parseJsonStr t = none → generate_deep_dive r = none) ∧
    (∀ r : Str, extractDelim lbrace rbrace (cleanResponse r) = none →
      parseJsonStr (cleanResponse r) = none → generate_deep_dive r = none) ∧
    (∀ (r p₁ j₁ p₂ : Str) (v : JVal), cleanResponse r = p₁ ++ j₁ ++ p₂ →
      (∀ c ∈ p₁, c ≠ '[') → (∀ c ∈ p₂, c ≠ ']') →
      (∃ j', j₁ = '[' :: j') → (∃ j'', j₁ = j'' ++ [']']) →
      parseJsonStr j₁ = some v →
      generate_quiz_json r = v) ∧
    (∀ r t : Str, extractDelim '[' ']' (cleanResponse r) = some t →
      parseJsonStr t = none → generate_quiz_json r = JVal.arr []) ∧
    (∀ r : Str, extractDelim '[' ']' (cleanResponse r) = none →
      parseJsonStr (cleanResponse r) = none →
      generate_quiz_json r = JVal.arr []) := by
  refine ⟨?_, ?_, ?_, ?_, ?_, ?_⟩
  · intro r p₁ j₁ p₂ v hc h₁ h₂ hj hj2 hp
    simp only [generate_deep_dive]
    rw [hc, extractDelim_prose lbrace rbrace p₁ j₁ p₂ h₁ h₂ hj hj2]
    exact hp
  · intro r t het hpt
    simp only [generate_deep_dive]
    rw [het]
    exact hpt
  · intro r hen hpn
    simp only [generate_deep_dive]
    rw [hen]
    exact hpn
  · intro r p₁ j₁ p₂ v hc h₁ h₂ hj hj2 hp
    simp only [generate_quiz_json]
    rw [hc, extractDelim_prose '[' ']' p₁ j₁ p₂ h₁ h₂ hj hj2]
    show (match parseJsonStr j₁ with | some w => w | none => JVal.arr []) = v
    rw [hp]
  · intro r t het hpt
    simp only [generate_quiz_json]
    rw [het]
    show (match parseJsonStr t with | some w => w | none => JVal.arr []) = JVal.arr []
    rw [hpt]
  · intro r hen hpn
    simp only [generate_quiz_json]
    rw [hen]
    show (match parseJsonStr (cleanResponse r) with
      | some w => w | none => JVal.arr []) = JVal.arr []
    rw [hpn]

/-- Witness for the amended C8: prose around a single JSON object is
tolerated and the object is parsed. -/
theorem claim8_witness : generate_deep_dive respProse = some vObj :=
  claim8_extraction.1 respProse (strOf "Sure! ") jObj (strOf " done.") vObj
    (by rfl) (by decide) (by decide) ⟨strOf "\"a\": 1" ++ [rbrace], rfl⟩
    ⟨lbrace :: strOf "\"a\": 1", rfl⟩ (by rfl)

/-- C8 counterexample: the cleaned response `respStray` begins with the
well-formed brace-delimited JSON object `jObj` (so a first well-formed
object exists in the response), yet the analysis requester returns
`none`: the greedy extraction spans up to the stray final closing brace
and the parse of that longer span fails. -/
theorem claim8_counterexample :
    cleanResponse respStray = jObj ++ (strOf " extra " ++ [rbrace]) ∧
    parseJsonStr jObj = some vObj ∧
    generate_deep_dive respStray = none :=
  ⟨by rfl, by rfl, by rfl⟩
